import Mathlib

/-!
Verification development for the RKNS container library (rekonas-com/rkns-python).

The Python source is shallowly embedded: real-valued quantities (physical
minima/maxima, sampling frequencies, durations) are modelled as exact
rationals `ℚ`, integer sample codes as `ℤ`, numpy arrays as lists of rows,
and Python exceptions as an explicit `PyErr` error type threaded through
`Except`.  Each embedded definition mirrors one function of the source tree;
the source file and symbol are named in its doc comment.
-/

namespace RKNS

/-- Python exception values surfaced by the embedded code.  The constructors
`unsupportedFormatError`, `alreadyExistsError` and `closedError` correspond to
error classes named by the specification's taxonomy (§7) that do not exist
anywhere in the code base; they are included so that theorems can express that
the code does *not* raise them. -/
inductive PyErr where
  | valueError (msg : String)
  | keyError (key : String)
  | runtimeError (msg : String)
  | notImplementedError (msg : String)
  | containsGroupError (msg : String)
  | indexError (msg : String)
  | unsupportedFormatError (msg : String)
  | alreadyExistsError (msg : String)
  | closedError (msg : String)
  deriving DecidableEq, Repr

/-! ## Lazy affine signal view — `src/rkns/lazy.py` -/

/-- Numpy basic slicing `l[a:b]` with non-negative integer bounds (the forms
exercised by the spec's indexing-equivalence property): drop the first `a`
elements, then take `b - a`; out-of-range bounds clamp. -/
def npSlice (a b : Nat) (l : List α) : List α := (l.drop a).take (b - a)

/-- A Python slice in one of the two shapes the claims use: the full slice
`:` (also what `...` normalizes to in `LazySignal.slice_columns_param`), or
`a:b` with non-negative integer bounds. -/
inductive PySlice where
  | all : PySlice
  | range (a b : Nat) : PySlice
  deriving DecidableEq, Repr

/-- Evaluate a `PySlice` against a list, following numpy basic indexing. -/
def PySlice.eval : PySlice → List α → List α
  | .all, l => l
  | .range a b, l => npSlice a b l

/-- State of `LazySignal.__init__` (`src/rkns/lazy.py`): the stored digital
source (rows = samples, row entries = channels) and the precomputed
`_m[0, :]` and `_bias[0, :]` parameter rows. -/
structure LazySignal where
  source : List (List ℚ)
  m : List ℚ
  bias : List ℚ
  deriving Repr

/-- Broadcast application of `_m * (data + _bias)` over one data row
(numpy broadcasting of the `(1, C)` parameter rows over a `(·, C)` slice):
entry `j` becomes `m[j] * (d[j] + bias[j])`. -/
def applyMB (m bias row : List ℚ) : List ℚ :=
  List.zipWith (fun p d => p.1 * (d + p.2)) (m.zip bias) row

/-- Embedding of `LazySignal.from_minmaxs`: `_m = (pmax - pmin) / (dmax - dmin)` and
`_bias = pmax / _m - dmax`, computed elementwise over the per-channel
vectors. -/
def fromMinmaxs (source : List (List ℚ)) (pmin pmax dmin dmax : List ℚ) :
    LazySignal :=
  let m := List.zipWith (· / ·)
    (List.zipWith (· - ·) pmax pmin) (List.zipWith (· - ·) dmax dmin)
  let bias := List.zipWith (· - ·) (List.zipWith (· / ·) pmax m) dmax
  ⟨source, m, bias⟩

/-- Embedding of `LazySignal.__getitem__` with a single row slice `v[a:b]` (or `v[:]`):
`slice_columns_param` returns the untouched `_m`/`_bias`, and the transform
is broadcast over the selected rows. -/
def getitemRowSlice (s : LazySignal) (r : PySlice) : List (List ℚ) :=
  (r.eval s.source).map (applyMB s.m s.bias)

/-- Embedding of `LazySignal.__getitem__` with a 2-tuple of slices `v[r, c]`:
`slice_columns_param` slices `_m[:, c]`/`_bias[:, c]`, and the data slice is
`source[r, c]`. -/
def getitemPair (s : LazySignal) (r c : PySlice) : List (List ℚ) :=
  (r.eval s.source).map (fun row => applyMB (c.eval s.m) (c.eval s.bias) (c.eval row))

/-- Embedding of `LazySignal.__getitem__` with a 2-tuple of integers `v[i, j]`:
`slice_columns_param` returns the scalars `_m[0, j]`/`_bias[0, j]`, the data
element is `source[i, j]`, and the result is the scalar
`_m[0, j] * (source[i, j] + _bias[0, j])`.  Out-of-range indices (a numpy
`IndexError`) are modelled by `none`. -/
def getitemIntInt (s : LazySignal) (i j : Nat) : Option ℚ := do
  let row ← s.source[i]?
  let d ← row[j]?
  let mj ← s.m[j]?
  let bj ← s.bias[j]?
  pure (mj * (d + bj))

/-- The textbook two-point calibration, written from the specification's
words (§4.4, §8 "Affine inverse consistency"): the physical value of digital
code `d` for a channel with stored `(pmin, pmax, dmin, dmax)`. -/
def twoPointCalibration (pmin pmax dmin dmax d : ℚ) : ℚ :=
  pmin + (d - dmin) * (pmax - pmin) / (dmax - dmin)

/-! ## EDF adapter extraction — `src/rkns/adapters/edf_adapter.py` -/

/-- Round-half-to-even of a rational to the nearest integer, the rounding
rule of `np.round` (ties at `.5` go to the even neighbour).  Floating-point
representation noise of real `np.float64` inputs around exact ties is outside
this exact-rational model. -/
def halfEvenInt (x : ℚ) : ℤ :=
  if x - ⌊x⌋ = 1 / 2 then (if ⌊x⌋ % 2 = 0 then ⌊x⌋ else ⌊x⌋ + 1)
  else round x

/-- Rounding to one decimal place, `np.round(x, 1)`. -/
def npRound1 (x : ℚ) : ℚ := (halfEvenInt (x * 10) : ℚ) / 10

/-- Python string formatting of a float that is an integer multiple of 1/10
(the result of `np.round(_, 1)`), e.g. `10.0`, `-0.5`, as interpolated by the
f-strings in `add_frequency_groups_to_headers` and `get_freq_group`. -/
def decimalStr1 (q : ℚ) : String :=
  let n : ℤ := ⌊q * 10⌋
  let sign := if n < 0 then "-" else ""
  sign ++ toString (n.natAbs / 10) ++ "." ++ toString (n.natAbs % 10)

/-- Frequency-group tag of a sampling rate: the string
`"fg_" + round(rate, 1)`.  This is the formula of both
`add_frequency_groups_to_headers` (`src/rkns/adapters/edf_adapter.py`) and
`get_freq_group` (`src/rkns/util/rkns_util.py`). -/
def freqGroupTag (f : ℚ) : String := "fg_" ++ decimalStr1 (npRound1 f)

/-- Per-channel header record as produced by `pyedflib` and consumed by
`RKNSEdfAdapter.extract_data`.  Real-valued fields are exact rationals; the
textual attributes not used by any claim are omitted. -/
structure SignalHeader where
  label : String
  sample_frequency : ℚ
  physical_min : ℚ
  physical_max : ℚ
  digital_min : ℚ
  digital_max : ℚ
  frequency_group : String := ""
  deriving DecidableEq, Repr

/-- Embedding of `add_frequency_groups_to_headers`: store
`"fg_" + round(sample_frequency, 1)` in every header's `frequency_group`
key. -/
def addFrequencyGroupsToHeaders (hs : List SignalHeader) : List SignalHeader :=
  hs.map (fun h => { h with frequency_group := freqGroupTag h.sample_frequency })

/-- Wrap an integer into the int16 range, as numpy integer casts do. -/
def wrapInt16 (x : ℤ) : ℤ := (x + 32768) % 65536 - 32768

/-- Truncation toward zero: Python/numpy real-to-integer conversion. -/
def ratTrunc (q : ℚ) : ℤ := if 0 ≤ q then ⌊q⌋ else -⌊-q⌋

/-- Numpy cast of a real value to `np.int16`: truncate toward zero, then
wrap into the 16-bit range. -/
def toInt16 (q : ℚ) : ℤ := wrapInt16 (ratTrunc q)

/-- The per-channel scaling row appended by `extract_data`:
`np.array([physical_min, physical_max, digital_min, digital_max],
dtype=np.int16)` — note the int16 cast. -/
def minmaxVec (h : SignalHeader) : List ℤ :=
  [toInt16 h.physical_min, toInt16 h.physical_max,
   toInt16 h.digital_min, toInt16 h.digital_max]

/-- Accumulated state of one frequency group inside the channel loop of
`RKNSEdfAdapter.extract_data`: `fg_arraylist[fg]["signal"]` (raw per-channel
sample vectors), `fg_arraylist[fg]["signal_minmaxs"]` (4-vectors, already
int16-cast at append time), `fg_attributes[fg]["channels"]`, and
`fg_attributes[fg]["sample_frequency_HZ"]` (assigned anew for every member,
so the last member's raw rate wins). -/
structure FGAccum where
  signalChannels : List (List ℤ)
  minmaxChannels : List (List ℤ)
  channels : List String
  sfreqHZ : ℚ
  deriving DecidableEq, Repr

/-- Loop-body effect of `extract_data` on one frequency-group entry: append
the channel's sample vector, its int16 min/max row and its label, and
(re)assign `fg_attributes[fg]["sample_frequency_HZ"]` to this channel's raw
rate — so after the loop that attribute holds the *last* member's rate. -/
def accAppend (a : FGAccum) (cd : List ℤ) (h : SignalHeader) : FGAccum :=
  FGAccum.mk (a.signalChannels ++ [cd]) (a.minmaxChannels ++ [minmaxVec h])
    (a.channels ++ [h.label]) h.sample_frequency

/-- One iteration of the channel loop of `extract_data` applied to a
`defaultdict`-style association list of frequency groups: append to the
existing entry for the channel's tag, or create a new entry at the end
(Python dicts preserve insertion order).  Keys are unique by construction,
so updating the first matching entry is exactly the dict update; the fresh
entry is `accAppend` applied to the `defaultdict(list)` default (the `0`
rate placeholder is overwritten on first touch, mirroring
`fg_attributes[fg]["sample_frequency_HZ"] = ...`). -/
def bucketStep : List (String × FGAccum) → List ℤ → SignalHeader →
    List (String × FGAccum)
  | [], cd, h => [(h.frequency_group, accAppend (FGAccum.mk [] [] [] 0) cd h)]
  | p :: rest, cd, h =>
    if p.1 == h.frequency_group then (p.1, accAppend p.2 cd h) :: rest
    else p :: bucketStep rest cd h

/-- Lookup of one frequency group's accumulator in the association list,
defaulting to the fresh `defaultdict(list)` entry when the tag is absent. -/
def accumAtD (bs : List (String × FGAccum)) (t : String) : FGAccum :=
  ((bs.find? (fun p => p.1 == t)).map (fun p => p.2)).getD (FGAccum.mk [] [] [] 0)

/-- The whole channel loop of `extract_data`: fold `bucketStep` over the
channels (the loop reads `channel_data[idx]` for each header index, i.e. the
two lists are traversed zipped). -/
def bucketise (channelData : List (List ℤ)) (hs : List SignalHeader) :
    List (String × FGAccum) :=
  (List.zip channelData hs).foldl (fun acc p => bucketStep acc p.1 p.2) []

/-- Comparison used by `np.isclose` with its default tolerances:
`|a - b| <= atol + rtol * |b|` with `rtol = 1e-05`, `atol = 1e-08`. -/
def npIsClose (a b : ℚ) : Prop :=
  |a - b| ≤ 1 / 100000000 + 1 / 100000 * |b|

instance (a b : ℚ) : Decidable (npIsClose a b) := by
  unfold npIsClose; infer_instance

/-- Embedding of `RKNSEdfAdapter.validate_consistent_duration`: build each
channel's duration `n_samples / sample_frequency` and raise `ValueError`
unless all are `np.isclose` to the first one.  An empty header list makes
`durations[0]` an `IndexError`. -/
def validateConsistentDuration (channelData : List (List ℤ))
    (hs : List SignalHeader) : Except PyErr Unit :=
  let durations := List.zipWith
    (fun (cd : List ℤ) (h : SignalHeader) =>
      (cd.length : ℚ) / h.sample_frequency) channelData hs
  match durations with
  | [] => .error (.indexError "list index out of range")
  | d0 :: _ =>
    if ∀ d ∈ durations, npIsClose d0 d then .ok ()
    else .error (.valueError
      "Channels in the input file are inconsistent with respect to the duration of the record.")

/-- Numpy element dtypes appearing in `extract_data`'s stored arrays. -/
inductive NpDType where
  | int16 : NpDType
  | float64 : NpDType
  deriving DecidableEq, Repr

/-- One frequency group as written by `extract_data` after the
`np.stack(..., 1, dtype=np.int16)` calls: the stacked `signal` array
(kept as its per-channel columns) and the stacked `signal_minmaxs` array,
each together with its element dtype, plus the group attributes. -/
structure FGArrays where
  channels : List String
  sfreqHZ : ℚ
  signalColumns : List (List ℤ)
  signalDtype : NpDType
  minmaxColumns : List (List ℤ)
  minmaxDtype : NpDType
  deriving DecidableEq, Repr

/-- Stacking step of `extract_data`: `np.stack(fg_arraylist[fg][key], 1,
dtype=np.int16)` casts every stored column to int16; both the `signal` and
the `signal_minmaxs` arrays get element dtype `np.int16`. -/
def stackFG (a : FGAccum) : FGArrays :=
  FGArrays.mk a.channels a.sfreqHZ
    (a.signalChannels.map (fun c => c.map wrapInt16)) .int16
    a.minmaxChannels .int16

/-- Result of `RKNSEdfAdapter.extract_data` (the parts the claims are
about): the frequency groups in insertion order and the recording duration
`len(channel_data[0]) / signal_headers[0]["sample_frequency"]`. -/
structure ExtractResult where
  fgs : List (String × FGArrays)
  recordingDuration : ℚ
  deriving DecidableEq, Repr

/-- Embedding of `RKNSEdfAdapter.extract_data`: group the channels with
`bucketStep`, stack each group's arrays as int16, compute the recording
duration from the first channel, and, when `validate` is set, run
`validate_consistent_duration` (whose `ValueError` aborts the extraction —
no partial result is returned). -/
def extractData (channelData : List (List ℤ)) (hs : List SignalHeader)
    (validate : Bool) : Except PyErr ExtractResult :=
  match channelData, hs with
  | [], _ => .error (.indexError "list index out of range")
  | _, [] => .error (.indexError "list index out of range")
  | cd0 :: _, h0 :: _ => do
    let duration := (cd0.length : ℚ) / h0.sample_frequency
    if validate then
      match validateConsistentDuration channelData hs with
      | .error e => .error e
      | .ok _ => .ok (ExtractResult.mk
          ((bucketise channelData hs).map (fun p => (p.1, stackFG p.2))) duration)
    else
      .ok (ExtractResult.mk
        ((bucketise channelData hs).map (fun p => (p.1, stackFG p.2))) duration)


/-! ## Store model and rkns zone creation — `src/rkns/adapters/base.py` -/

/-- Character-list test that the first list leads (is an initial segment
of) the second; structural recursion, used for the store-path model. -/
def leadsList : List Char → List Char → Bool
  | [], _ => true
  | _ :: _, [] => false
  | a :: as, b :: bs => a == b && leadsList as bs

/-- Paths created by the `create_hierarchy` call of
`create_rkns_group_structure`: the two requested nodes plus the implicitly
created parent `rkns` (zarr's `Group.create_hierarchy` creates and yields
implicit parents). -/
def rknsHierarchyPaths : List String := ["rkns", "rkns/signals", "rkns/annotations"]

/-- Model of zarr `Group.create_hierarchy` with `overwrite=False` over a
store modelled as the list of existing node paths: raises
`ContainsGroupError` when a requested node already exists, otherwise adds
the nodes. -/
def createHierarchy (st : List String) (paths : List String) :
    Except PyErr (List String) :=
  if paths.any (fun p => st.contains p) then
    .error (.containsGroupError "group exists")
  else
    .ok (st ++ paths)

/-- Model of `store.delete_dir(d)`: removes every node at or below the
given store-root-relative path. -/
def deleteDir (st : List String) (d : String) : List String :=
  st.filter (fun p => ! (p == d || leadsList (d ++ "/").data p.data))

/-- Embedding of `RKNSBaseAdapter.create_rkns_group_structure`
(`src/rkns/adapters/base.py`): try `create_hierarchy`; on
`ContainsGroupError`, if `overwrite_if_exists` is set, run
`store.delete_dir(_rkns_signals_name)` — the *store-root* path `signals`,
not the zone's actual path `rkns/signals` — and retry `create_hierarchy`,
whose error now propagates uncaught; otherwise raise `RuntimeError` (the
code base defines no `AlreadyExistsError` class). -/
def createRknsGroupStructure (st : List String) (overwrite : Bool) :
    Except PyErr (List String) :=
  match createHierarchy st rknsHierarchyPaths with
  | .ok st2 => .ok st2
  | .error _ =>
    if overwrite then
      createHierarchy (deleteDir st "signals") rknsHierarchyPaths
    else
      .error (.runtimeError
        "The group node /rkns already exists. For overwriting it, set overwrite_if_exists=True")

/-! ## Format detection — `src/rkns/detectors/registry.py`, `RKNSBuilder.from_file` -/

/-- The `FileFormat` enum of `src/rkns/file_formats.py`. -/
inductive FileFormat where
  | RKNS : FileFormat
  | EDF : FileFormat
  | EDF_PLUS : FileFormat
  | BDF : FileFormat
  | BDF_PLUS : FileFormat
  | UNKNOWN : FileFormat
  deriving DecidableEq, Repr

/-- Embedding of `FileFormatRegistry.detect_fileformat`: run the
registered detector functions in registration order; the first
non-UNKNOWN result is returned immediately; if every detector returns
UNKNOWN the loop falls through and UNKNOWN (the last assigned value) is
returned. -/
def detectFileformat {α : Type} (ds : List (α → FileFormat)) (file : α) : FileFormat :=
  match ds with
  | [] => .UNKNOWN
  | d :: rest =>
    if d file ≠ .UNKNOWN then d file else detectFileformat rest file

/-- Embedding of the detection step of `RKNSBuilder.from_file`
(`src/rkns/rkns.py`): when detection yields UNKNOWN, raise
`NotImplementedError` — the code base defines no `UnsupportedFormatError`
— otherwise continue with the detected format. -/
def fromFileDetect {α : Type} (ds : List (α → FileFormat)) (file : α) :
    Except PyErr FileFormat :=
  if detectFileformat ds file = .UNKNOWN then
    .error (.notImplementedError "File format could not be detected")
  else
    .ok (detectFileformat ds file)

/-! ## Closed-state guard — `src/rkns/util/misc.py`, `src/rkns/rkns.py`,
`src/rkns/_zarr/storehandler_zarr_v3.py` -/

/-- Combined closed flags of an `RKNS` object and its `StoreHandler`.
`RKNS.__init__` sets `self._is_closed = False` and no code path ever sets
it to `True`; `StoreHandler.close` sets only the handler's own flag. -/
structure RknsState where
  rknsIsClosed : Bool
  handlerIsClosed : Bool
  deriving DecidableEq, Repr

/-- Embedding of the flag initialization in `RKNS.__init__`. -/
def rknsInit (handlerClosed : Bool) : RknsState :=
  RknsState.mk false handlerClosed

/-- Embedding of `StoreHandlerZarrV3.close`: a no-op when already closed
(idempotent), otherwise sets the handler's `_is_closed` flag.  The
wrapping `RKNS` object's `_is_closed` flag is untouched. -/
def handlerClose (st : RknsState) : RknsState :=
  if st.handlerIsClosed then st else RknsState.mk st.rknsIsClosed true

/-- Embedding of the `check_open` decorator guard applied to every public
`RKNS` method by `apply_check_open_to_all_methods`
(`src/rkns/util/misc.py`): raise `RuntimeError` iff the wrapped object's
own `_is_closed` flag is set, else let the method body run. -/
def checkOpenGuard (st : RknsState) : Except PyErr Unit :=
  if st.rknsIsClosed then
    .error (.runtimeError "Cannot execute method: RKNS object has been closed")
  else
    .ok ()

/-- Embedding of `RKNS.__exit__`: delegates to the handler's `close`. -/
def rknsExit (st : RknsState) : RknsState := handlerClose st

/-! ## Signal selection — `RKNS.get_signal` (`src/rkns/rkns.py`) -/

/-- Lookup of a channel's frequency group in the `channel_info` attribute
map (`RKNS._get_frequencygroup`); a missing name is a Python `KeyError`. -/
def channelFG (channelInfo : List (String × String)) (c : String) :
    Except PyErr String :=
  match channelInfo.find? (fun p => p.1 == c) with
  | some p => .ok p.2
  | none => .error (.keyError c)

/-- Sequential collection of the requested channels' frequency groups:
the set comprehension in `get_signal` evaluates `_get_frequencygroup`
channel by channel, so the first unknown name raises `KeyError`. -/
def channelFGs (channelInfo : List (String × String)) :
    List String → Except PyErr (List String)
  | [] => .ok []
  | c :: cs => do
    let fg ← channelFG channelInfo c
    let rest ← channelFGs channelInfo cs
    pure (fg :: rest)

/-- Embedding of the selector-validation part of `RKNS.get_signal`: both
selectors given, or neither, raise `ValueError`; with the frequency
selector the group tag is `get_freq_group(sfreq_Hz)`; with the channel
selector each channel's group is looked up (`KeyError` on an unknown
name) and the set of distinct groups must be a singleton, else
`ValueError`.  The subsequent row/column indexing is modelled
separately.  `selectSingleFG` is the `len(fgs) != 1` check followed by
`fg = next(iter(fgs))`, over the set of looked-up groups. -/
def selectSingleFG (fgs : List String) : Except PyErr String :=
  match fgs.dedup with
  | [fg] => .ok fg
  | _ =>
    .error (.valueError "Channels must belong to the same frequency group.")

/-- Selector dispatch of `RKNS.get_signal`; see the comment above. -/
def getSignalSelect (channelInfo : List (String × String))
    (channels : Option (List String)) (sfreq : Option ℚ) :
    Except PyErr String :=
  match channels, sfreq with
  | some _, some _ =>
    .error (.valueError "Specify either channels or frequency, not both.")
  | none, none =>
    .error (.valueError "Specify one of either channels or frequency.")
  | none, some f => .ok (freqGroupTag f)
  | some cs, none => channelFGs channelInfo cs >>= selectSingleFG

/-- Embedding of `RKNS.__build_row_idx_from_timerange`
(`src/rkns/rkns.py`) for a finite explicit `(start, end)` range: raise
`ValueError` when `end <= start` (checked before
`get_recording_duration()` is consulted — accordingly the error below does
not depend on `duration`), else return
`slice(int(start*sfreq), int(min(start + duration, end) * sfreq))` with
Python `int()` truncation toward zero. -/
def buildRowIdxFromTimerange (duration sfreq t0 t1 : ℚ) :
    Except PyErr (ℤ × ℤ) :=
  if t1 ≤ t0 then
    .error (.valueError
      "Invalid time range. End time must be larger than start time.")
  else
    .ok (ratTrunc (t0 * sfreq), ratTrunc (min (t0 + duration) t1 * sfreq))

/-! ### Helper lemmas about list slicing -/

theorem npSlice_zero (l : List α) (k : Nat) : npSlice 0 k l = l.take k := by
  simp [npSlice]

theorem npSlice_to_end (l : List α) (k : Nat) :
    npSlice k l.length l = l.drop k := by
  unfold npSlice
  exact List.take_of_length_le (by simp)

theorem npSlice_split (l : List α) (k : Nat) :
    npSlice 0 k l ++ npSlice k l.length l = l := by
  rw [npSlice_zero, npSlice_to_end, List.take_append_drop]

theorem npSlice_singleton (l : List α) (i : Nat) (h : i < l.length) :
    npSlice i (i + 1) l = [l[i]] := by
  unfold npSlice
  have h1 : i + 1 - i = 1 := by omega
  rw [h1, List.drop_eq_getElem_cons h]
  rfl

/-! ### Helper lemmas about frequency-group bucketing -/

theorem accumAtD_cons (p : String × FGAccum) (rest : List (String × FGAccum))
    (t : String) :
    accumAtD (p :: rest) t = if p.1 = t then p.2 else accumAtD rest t := by
  by_cases hp : p.1 = t
  · simp [accumAtD, List.find?, hp]
  · have hb : (p.1 == t) = false := beq_eq_false_iff_ne.mpr hp
    simp [accumAtD, List.find?, hb, hp]

theorem bucketStep_cons_eq (p : String × FGAccum)
    (rest : List (String × FGAccum)) (cd : List ℤ) (h : SignalHeader)
    (hp : p.1 = h.frequency_group) :
    bucketStep (p :: rest) cd h = (p.1, accAppend p.2 cd h) :: rest := by
  simp [bucketStep, hp]

theorem bucketStep_cons_ne (p : String × FGAccum)
    (rest : List (String × FGAccum)) (cd : List ℤ) (h : SignalHeader)
    (hp : ¬ p.1 = h.frequency_group) :
    bucketStep (p :: rest) cd h = p :: bucketStep rest cd h := by
  simp [bucketStep, hp]

theorem accumAtD_bucketStep (acc : List (String × FGAccum)) (cd : List ℤ)
    (h : SignalHeader) (t : String) :
    accumAtD (bucketStep acc cd h) t =
      if h.frequency_group = t then accAppend (accumAtD acc t) cd h
      else accumAtD acc t := by
  induction acc with
  | nil =>
    by_cases ht : h.frequency_group = t <;>
      simp [bucketStep, accumAtD_cons, accumAtD, ht]
  | cons p rest ih =>
    by_cases hp : p.1 = h.frequency_group
    · rw [bucketStep_cons_eq p rest cd h hp]
      by_cases ht : p.1 = t
      · have hft : h.frequency_group = t := hp ▸ ht
        rw [accumAtD_cons, accumAtD_cons, if_pos ht, if_pos ht, if_pos hft]
      · have hft : ¬ h.frequency_group = t := fun he => ht (hp.symm ▸ he)
        rw [accumAtD_cons, accumAtD_cons, if_neg ht, if_neg ht, if_neg hft]
    · rw [bucketStep_cons_ne p rest cd h hp]
      by_cases ht : p.1 = t
      · have hft : ¬ h.frequency_group = t := fun he =>
          hp (ht.symm ▸ he.symm ▸ rfl)
        rw [accumAtD_cons, accumAtD_cons, if_pos ht, if_pos ht, if_neg hft]
      · rw [accumAtD_cons, accumAtD_cons, if_neg ht, if_neg ht, ih]

theorem accumAtD_foldl (ps : List (List ℤ × SignalHeader))
    (acc : List (String × FGAccum)) (t : String) :
    accumAtD (ps.foldl (fun a p => bucketStep a p.1 p.2) acc) t
      = (ps.filter (fun p => p.2.frequency_group == t)).foldl
          (fun a p => accAppend a p.1 p.2) (accumAtD acc t) := by
  induction ps generalizing acc with
  | nil => rfl
  | cons p ps ih =>
    rw [List.foldl_cons, ih]
    by_cases hp : p.2.frequency_group = t <;>
      simp [List.filter_cons, hp, accumAtD_bucketStep]

theorem foldl_accAppend_channels (ms : List (List ℤ × SignalHeader))
    (a : FGAccum) :
    (ms.foldl (fun x p => accAppend x p.1 p.2) a).channels
      = a.channels ++ ms.map (fun p => p.2.label) := by
  induction ms generalizing a with
  | nil => simp
  | cons m ms ih =>
    rw [List.foldl_cons, ih]
    simp [accAppend]

theorem foldl_accAppend_minmax (ms : List (List ℤ × SignalHeader))
    (a : FGAccum) :
    (ms.foldl (fun x p => accAppend x p.1 p.2) a).minmaxChannels
      = a.minmaxChannels ++ ms.map (fun p => minmaxVec p.2) := by
  induction ms generalizing a with
  | nil => simp
  | cons m ms ih =>
    rw [List.foldl_cons, ih]
    simp [accAppend]

theorem foldl_accAppend_signal (ms : List (List ℤ × SignalHeader))
    (a : FGAccum) :
    (ms.foldl (fun x p => accAppend x p.1 p.2) a).signalChannels
      = a.signalChannels ++ ms.map (fun p => p.1) := by
  induction ms generalizing a with
  | nil => simp
  | cons m ms ih =>
    rw [List.foldl_cons, ih]
    simp [accAppend]

theorem foldl_accAppend_sfreq (ms : List (List ℤ × SignalHeader))
    (a : FGAccum) :
    (ms.foldl (fun x p => accAppend x p.1 p.2) a).sfreqHZ
      = ((ms.getLast?).map (fun p => p.2.sample_frequency)).getD a.sfreqHZ := by
  induction ms generalizing a with
  | nil => rfl
  | cons m ms ih =>
    rw [List.foldl_cons, ih]
    cases ms with
    | nil => rfl
    | cons m2 ms2 =>
      rw [List.getLast?_cons_cons]
      cases hl : (m2 :: ms2).getLast? with
      | none => exact absurd (List.getLast?_eq_none_iff.mp hl) (by simp)
      | some x => simp [hl]

theorem keys_bucketStep (acc : List (String × FGAccum)) (cd : List ℤ)
    (h : SignalHeader) :
    (bucketStep acc cd h).map Prod.fst =
      if h.frequency_group ∈ acc.map Prod.fst then acc.map Prod.fst
      else acc.map Prod.fst ++ [h.frequency_group] := by
  induction acc with
  | nil => simp [bucketStep]
  | cons p rest ih =>
    by_cases hp : p.1 = h.frequency_group
    · simp [bucketStep, hp]
    · have hne : h.frequency_group ≠ p.1 := fun he => hp he.symm
      by_cases hm : h.frequency_group ∈ rest.map Prod.fst <;>
        simp [bucketStep, hp, ih, hm, hne]

theorem keys_nodup_bucketStep (acc : List (String × FGAccum)) (cd : List ℤ)
    (h : SignalHeader) (hnd : (acc.map Prod.fst).Nodup) :
    ((bucketStep acc cd h).map Prod.fst).Nodup := by
  rw [keys_bucketStep]
  by_cases hm : h.frequency_group ∈ acc.map Prod.fst <;>
    simp [hm, hnd, List.nodup_append]

theorem keys_nodup_foldl (ps : List (List ℤ × SignalHeader))
    (acc : List (String × FGAccum)) (hnd : (acc.map Prod.fst).Nodup) :
    (((ps.foldl (fun a p => bucketStep a p.1 p.2) acc)).map Prod.fst).Nodup := by
  induction ps generalizing acc with
  | nil => exact hnd
  | cons p ps ih =>
    rw [List.foldl_cons]
    exact ih _ (keys_nodup_bucketStep acc p.1 p.2 hnd)

theorem mem_keys_bucketStep (acc : List (String × FGAccum)) (cd : List ℤ)
    (h : SignalHeader) (t : String) :
    t ∈ (bucketStep acc cd h).map Prod.fst ↔
      t ∈ acc.map Prod.fst ∨ t = h.frequency_group := by
  rw [keys_bucketStep]
  by_cases hm : h.frequency_group ∈ acc.map Prod.fst
  · simp only [hm, if_pos]
    constructor
    · exact Or.inl
    · rintro (ht | ht)
      · exact ht
      · exact ht ▸ hm
  · simp [hm]

theorem mem_keys_foldl (ps : List (List ℤ × SignalHeader))
    (acc : List (String × FGAccum)) (t : String) :
    t ∈ ((ps.foldl (fun a p => bucketStep a p.1 p.2) acc)).map Prod.fst ↔
      t ∈ acc.map Prod.fst ∨ t ∈ ps.map (fun p => p.2.frequency_group) := by
  induction ps generalizing acc with
  | nil => simp
  | cons p ps ih =>
    rw [List.foldl_cons, ih, mem_keys_bucketStep]
    simp only [List.map_cons, List.mem_cons]
    tauto

theorem accumAtD_of_mem (bs : List (String × FGAccum)) (t : String)
    (a : FGAccum) (hnd : (bs.map Prod.fst).Nodup) (hmem : (t, a) ∈ bs) :
    accumAtD bs t = a := by
  induction bs with
  | nil => cases hmem
  | cons p rest ih =>
    rcases List.mem_cons.mp hmem with he | he
    · rw [← he, accumAtD_cons]
      simp
    · have hp : ¬ (p.1 = t) := by
        intro hpt
        have : t ∈ rest.map Prod.fst :=
          List.mem_map.mpr ⟨(t, a), he, rfl⟩
        exact (List.nodup_cons.mp hnd).1 (hpt ▸ this)
      rw [accumAtD_cons, if_neg hp]
      exact ih (List.nodup_cons.mp hnd).2 he

theorem accumAtD_mem (bs : List (String × FGAccum)) (t : String)
    (hk : t ∈ bs.map Prod.fst) : (t, accumAtD bs t) ∈ bs := by
  induction bs with
  | nil => cases hk
  | cons p rest ih =>
    rcases p with ⟨k, v⟩
    by_cases hp : k = t
    · subst hp
      rw [accumAtD_cons]
      simp
    · rw [accumAtD_cons]
      simp only [hp, if_false, if_neg hp]
      right
      refine ih ?_
      rcases List.mem_cons.mp hk with he | he
      · exact absurd he.symm hp
      · exact he

theorem join_channels_bucketStep (acc : List (String × FGAccum))
    (cd : List ℤ) (h : SignalHeader) :
    ((bucketStep acc cd h).map (fun p => p.2.channels)).flatten.Perm
      ((acc.map (fun p => p.2.channels)).flatten ++ [h.label]) := by
  induction acc with
  | nil => simp [bucketStep, accAppend]
  | cons p rest ih =>
    by_cases hp : p.1 = h.frequency_group
    · simp only [bucketStep, hp, if_pos, beq_self_eq_true, List.map_cons,
        List.flatten_cons, accAppend]
      rw [List.append_assoc, List.append_assoc]
      exact List.Perm.append_left _ (List.perm_append_comm)
    · have hp' : (p.1 == h.frequency_group) = false := by
        simp [hp]
      simp only [bucketStep, hp', Bool.false_eq_true, if_false, List.map_cons,
        List.flatten_cons]
      rw [List.append_assoc]
      exact List.Perm.append_left _ ih

theorem join_channels_foldl (ps : List (List ℤ × SignalHeader))
    (acc : List (String × FGAccum)) :
    (((ps.foldl (fun a p => bucketStep a p.1 p.2) acc)).map
        (fun p => p.2.channels)).flatten.Perm
      ((acc.map (fun p => p.2.channels)).flatten
        ++ ps.map (fun p => p.2.label)) := by
  induction ps generalizing acc with
  | nil => simp
  | cons m ms ih =>
    rw [List.foldl_cons]
    refine (ih _).trans ?_
    refine ((join_channels_bucketStep acc m.1 m.2).append_right _).trans ?_
    rw [List.append_assoc]
    simp

end RKNS

namespace RKNS

/-- Claim C1, counterexample.  The claim only excludes `dmax = dmin`, but a channel
with `pmax = pmin` (here `pmin = pmax = 1`, `dmin = 0`, `dmax = 1`) breaks the
claimed equality with the textbook calibration: `_m = 0`, so the stored
`_bias = pmax / 0 - dmax` is degenerate (`nan`/`inf` under numpy floats, the
`q / 0 = 0` convention in this exact-rational embedding) and the indexed read
of digital code `0` returns `0` while the textbook two-point calibration
gives `pmin = 1`. -/
theorem c1_counterexample :
    getitemIntInt (fromMinmaxs [[0]] [1] [1] [0] [1]) 0 0 = some 0 ∧
    twoPointCalibration 1 1 0 1 0 = 1 ∧
    getitemIntInt (fromMinmaxs [[0]] [1] [1] [0] [1]) 0 0
      ≠ some (twoPointCalibration 1 1 0 1 0) := by
  refine ⟨?_, ?_, ?_⟩ <;>
    norm_num [getitemIntInt, fromMinmaxs, twoPointCalibration]

/-- Claim C1 (amended: additionally requiring `pmax ≠ pmin` per channel).  For a
`LazySignal` built via `from_minmaxs`, at every channel `j`, the precomputed
scale is `m = (pmax - pmin) / (dmax - dmin)` and bias is
`bias = pmax / m - dmax`; an indexed read of the digital code at `(i, j)`
returns `m * (digital + bias)`, which equals the textbook two-point
calibration exactly (hence within any floating tolerance). -/
theorem c1_affine_calibration
    (source : List (List ℚ)) (pmin pmax dmin dmax : List ℚ)
    (i j : Nat) (d pn px dn dx : ℚ)
    (hrow : source[i]?.bind (fun r => r[j]?) = some d)
    (hpn : pmin[j]? = some pn) (hpx : pmax[j]? = some px)
    (hdn : dmin[j]? = some dn) (hdx : dmax[j]? = some dx)
    (hdne : dx ≠ dn) (hpne : px ≠ pn) :
    (fromMinmaxs source pmin pmax dmin dmax).m[j]?
        = some ((px - pn) / (dx - dn)) ∧
    (fromMinmaxs source pmin pmax dmin dmax).bias[j]?
        = some (px / ((px - pn) / (dx - dn)) - dx) ∧
    getitemIntInt (fromMinmaxs source pmin pmax dmin dmax) i j
        = some (((px - pn) / (dx - dn))
            * (d + (px / ((px - pn) / (dx - dn)) - dx))) ∧
    ((px - pn) / (dx - dn)) * (d + (px / ((px - pn) / (dx - dn)) - dx))
        = twoPointCalibration pn px dn dx d := by
  have hm : (fromMinmaxs source pmin pmax dmin dmax).m[j]?
      = some ((px - pn) / (dx - dn)) := by
    simp [fromMinmaxs, List.getElem?_zipWith, hpx, hpn, hdx, hdn]
  have hbias : (fromMinmaxs source pmin pmax dmin dmax).bias[j]?
      = some (px / ((px - pn) / (dx - dn)) - dx) := by
    simp [fromMinmaxs, List.getElem?_zipWith, hpx, hpn, hdx, hdn]
  refine ⟨hm, hbias, ?_, ?_⟩
  · rcases Option.bind_eq_some.mp hrow with ⟨row, hsrc, hd⟩
    have hsrc' : (fromMinmaxs source pmin pmax dmin dmax).source[i]? = some row :=
      hsrc
    simp [getitemIntInt, hsrc', hd, hm, hbias]
  · have hdd : dx - dn ≠ 0 := sub_ne_zero.mpr hdne
    have hpp : px - pn ≠ 0 := sub_ne_zero.mpr hpne
    have hmne : (px - pn) / (dx - dn) ≠ 0 := div_ne_zero hpp hdd
    unfold twoPointCalibration
    field_simp
    ring

/-- Claim C1 witness: the amended theorem applied to the 3-sample test channel
from `src/tests/test_lazy.py` (`pmin = -1`, `pmax = 1`, `dmin = 0`,
`dmax = 3000`), reading the digital code `3000` at index `(2, 0)`. -/
theorem c1_affine_calibration_witness :
    (fromMinmaxs [[1000], [2000], [3000]] [-1] [1] [0] [3000]).m[0]?
        = some ((1 - (-1)) / ((3000 : ℚ) - 0)) ∧
    (fromMinmaxs [[1000], [2000], [3000]] [-1] [1] [0] [3000]).bias[0]?
        = some (1 / ((1 - (-1)) / ((3000 : ℚ) - 0)) - 3000) ∧
    getitemIntInt (fromMinmaxs [[1000], [2000], [3000]] [-1] [1] [0] [3000]) 2 0
        = some (((1 - (-1)) / ((3000 : ℚ) - 0))
            * (3000 + (1 / ((1 - (-1)) / ((3000 : ℚ) - 0)) - 3000))) ∧
    ((1 - (-1)) / ((3000 : ℚ) - 0))
        * (3000 + (1 / ((1 - (-1)) / ((3000 : ℚ) - 0)) - 3000))
        = twoPointCalibration (-1) 1 0 3000 3000 :=
  c1_affine_calibration [[1000], [2000], [3000]] [-1] [1] [0] [3000] 2 0
    3000 (-1) 1 0 3000 rfl rfl rfl rfl rfl (by norm_num) (by norm_num)

/-- Claim C2: for a lazy view over an `(S, C)` source, full materialization equals
the row-wise concatenation of `v[0:k]` and `v[k:S]` for every split point
`k ≤ S`; `v[:, :]` equals `v[:]`; and the scalar `v[i, j]` equals the single
element of the `(1, 1)` result of `v[i:i+1, j:j+1]`. -/
theorem c2_indexing_equivalence (s : LazySignal) (S C k i j : Nat)
    (hS : s.source.length = S)
    (hrect : ∀ r ∈ s.source, r.length = C)
    (hm : s.m.length = C) (hb : s.bias.length = C)
    (hk : k ≤ S) (hi : i < S) (hj : j < C) :
    (getitemRowSlice s .all
        = getitemRowSlice s (.range 0 k) ++ getitemRowSlice s (.range k S)) ∧
    getitemPair s .all .all = getitemRowSlice s .all ∧
    ∃ x, getitemIntInt s i j = some x
      ∧ getitemPair s (.range i (i + 1)) (.range j (j + 1)) = [[x]] := by
  subst hS
  have hjm : j < s.m.length := hm ▸ hj
  have hjb : j < s.bias.length := hb ▸ hj
  refine ⟨?_, rfl, ?_⟩
  · simp only [getitemRowSlice, PySlice.eval, ← List.map_append, npSlice_split]
  · have hrowlen : s.source[i].length = C :=
      hrect _ (List.getElem_mem hi)
    have hjrow : j < s.source[i].length := hrowlen ▸ hj
    refine ⟨s.m[j] * (s.source[i][j] + s.bias[j]), ?_, ?_⟩
    · simp [getitemIntInt, List.getElem?_eq_getElem, hi, hjrow, hjm, hjb]
    · unfold getitemPair
      simp only [PySlice.eval]
      rw [npSlice_singleton s.source i hi]
      simp only [List.map_cons, List.map_nil]
      rw [npSlice_singleton s.m j hjm, npSlice_singleton s.bias j hjb,
        npSlice_singleton (s.source[i]) j hjrow]
      simp [applyMB]

/-- Claim C2 witness: the indexing-equivalence theorem instantiated on a concrete
`2 × 2` lazy view with split point `k = 1` and element index `(1, 0)`. -/
theorem c2_indexing_equivalence_witness :
    (getitemRowSlice (LazySignal.mk [[0, 1], [2, 3]] [1, 2] [5, 7]) .all
        = getitemRowSlice (LazySignal.mk [[0, 1], [2, 3]] [1, 2] [5, 7])
            (.range 0 1)
          ++ getitemRowSlice (LazySignal.mk [[0, 1], [2, 3]] [1, 2] [5, 7])
            (.range 1 2)) ∧
    getitemPair (LazySignal.mk [[0, 1], [2, 3]] [1, 2] [5, 7]) .all .all
        = getitemRowSlice (LazySignal.mk [[0, 1], [2, 3]] [1, 2] [5, 7]) .all ∧
    ∃ x, getitemIntInt (LazySignal.mk [[0, 1], [2, 3]] [1, 2] [5, 7]) 1 0
        = some x
      ∧ getitemPair (LazySignal.mk [[0, 1], [2, 3]] [1, 2] [5, 7])
            (.range 1 2) (.range 0 1) = [[x]] :=
  c2_indexing_equivalence (LazySignal.mk [[0, 1], [2, 3]] [1, 2] [5, 7])
    2 2 1 1 0 rfl
    (by intro r hr; simp only [List.mem_cons, List.mem_singleton] at hr
        rcases hr with h | h | h <;> first | (subst h; rfl) | cases h)
    rfl rfl (by norm_num) (by norm_num) (by norm_num)

/-- Claim C3, counterexample.  A single channel "A" with raw sampling rate
10.04 Hz (= 251/25) is tagged `fg_10.0` (the rounded rate), but the group's
stored `sample_frequency_HZ` attribute is the raw rate 10.04, not the
rounded rate 10.0 claimed by the spec:
`fg_attributes[fg]["sample_frequency_HZ"] = s_header["sample_frequency"]`
stores the unrounded value (and the attribute key is
`sample_frequency_HZ`, not `sfreq_Hz`). -/
theorem c3_counterexample :
    bucketise [[0]]
        (addFrequencyGroupsToHeaders
          [SignalHeader.mk "A" (251 / 25) 0 1 0 1 ""])
      = [("fg_10.0", FGAccum.mk [[0]] [[0, 1, 0, 1]] ["A"] (251 / 25))] ∧
    npRound1 (251 / 25) = 10 ∧ ((251 : ℚ) / 25) ≠ 10 := by
  have hfloor1 : (⌊(251 / 25 * 10 : ℚ)⌋ : ℤ) = 100 := by
    rw [Int.floor_eq_iff]
    norm_num
  have hfloor3 : (⌊(1009 / 10 : ℚ)⌋ : ℤ) = 100 := by
    rw [Int.floor_eq_iff]
    norm_num
  have hround : npRound1 (251 / 25) = 10 := by
    rw [npRound1, halfEvenInt, hfloor1]
    rw [if_neg (by norm_num)]
    rw [round_eq]
    rw [show ((251 : ℚ) / 25 * 10 + 1 / 2) = 1009 / 10 by norm_num]
    rw [hfloor3]
    norm_num
  have hfloor2 : (⌊((10 : ℚ) * 10)⌋ : ℤ) = 100 := by norm_num
  have htag : freqGroupTag (251 / 25) = "fg_10.0" := by
    rw [freqGroupTag, hround, decimalStr1]
    rw [show (⌊((10 : ℚ) * 10)⌋ : ℤ) = 100 from hfloor2]
    rfl
  refine ⟨?_, hround, by norm_num⟩
  have hints : toInt16 0 = 0 ∧ toInt16 1 = 1 := by
    constructor <;> simp [toInt16, ratTrunc, wrapInt16]
  simp [bucketise, addFrequencyGroupsToHeaders, htag, bucketStep, accAppend,
    minmaxVec, hints.1, hints.2]

/-- Claim C3 (amended: the stored group attribute — keyed
`sample_frequency_HZ` in the code, not `sfreq_Hz` — holds the *unrounded*
rate of the group's last member, not the rounded rate).  Frequency-group
extraction tags each channel with `"fg_" + round(rate, 1)` and buckets the
channels by tag preserving the original channel order; with pairwise
distinct labels, every channel belongs to exactly one group and the
concatenation of all groups' channel lists is a duplicate-free permutation
of the full channel list. -/
theorem c3_frequency_grouping (cd : List (List ℤ)) (hs0 : List SignalHeader)
    (hlen : cd.length = hs0.length)
    (hnodup : (hs0.map (fun h => h.label)).Nodup) :
    (∀ h ∈ addFrequencyGroupsToHeaders hs0,
        h.frequency_group = freqGroupTag h.sample_frequency) ∧
    ((bucketise cd (addFrequencyGroupsToHeaders hs0)).map Prod.fst).Nodup ∧
    (∀ t a, (t, a) ∈ bucketise cd (addFrequencyGroupsToHeaders hs0) →
        a.channels = ((addFrequencyGroupsToHeaders hs0).filter
          (fun h => h.frequency_group == t)).map (fun h => h.label)
        ∧ (((addFrequencyGroupsToHeaders hs0).filter
            (fun h => h.frequency_group == t)).map
              (fun h => h.sample_frequency)).getLast? = some a.sfreqHZ) ∧
    (∀ h ∈ addFrequencyGroupsToHeaders hs0,
        (∃ a, (h.frequency_group, a)
              ∈ bucketise cd (addFrequencyGroupsToHeaders hs0)
            ∧ h.label ∈ a.channels)
        ∧ ∀ t a, (t, a) ∈ bucketise cd (addFrequencyGroupsToHeaders hs0) →
            h.label ∈ a.channels → t = h.frequency_group) ∧
    ((bucketise cd (addFrequencyGroupsToHeaders hs0)).map
        (fun p => p.2.channels)).flatten.Perm
      (hs0.map (fun h => h.label)) ∧
    ((bucketise cd (addFrequencyGroupsToHeaders hs0)).map
        (fun p => p.2.channels)).flatten.Nodup := by
  set hs := addFrequencyGroupsToHeaders hs0 with hhs
  have hlabels : hs.map (fun h => h.label) = hs0.map (fun h => h.label) := by
    simp [hhs, addFrequencyGroupsToHeaders]
  have hlen' : cd.length = hs.length := by
    simp [hhs, addFrequencyGroupsToHeaders, hlen]
  have hsnd : (cd.zip hs).map Prod.snd = hs :=
    List.map_snd_zip cd hs (le_of_eq hlen'.symm)
  have hfil : ∀ t : String,
      ((cd.zip hs).filter (fun p => p.2.frequency_group == t)).map Prod.snd
        = hs.filter (fun h => h.frequency_group == t) := by
    intro t
    conv_rhs => rw [← hsnd]
    rw [List.filter_map]
    rfl
  have hnd : ((bucketise cd hs).map Prod.fst).Nodup :=
    keys_nodup_foldl _ [] (by simp)
  have hcontent : ∀ t a, (t, a) ∈ bucketise cd hs →
      accumAtD (bucketise cd hs) t = a :=
    fun t a hm => accumAtD_of_mem _ _ _ hnd hm
  have haccum : ∀ t, accumAtD (bucketise cd hs) t
      = ((cd.zip hs).filter (fun p => p.2.frequency_group == t)).foldl
          (fun a p => accAppend a p.1 p.2) (FGAccum.mk [] [] [] 0) := by
    intro t
    rw [bucketise, accumAtD_foldl]
    rfl
  have hchan : ∀ t, (accumAtD (bucketise cd hs) t).channels
      = (hs.filter (fun h => h.frequency_group == t)).map
          (fun h => h.label) := by
    intro t
    rw [haccum, foldl_accAppend_channels, ← hfil t, List.map_map]
    rfl
  have hsfreq : ∀ t a, (t, a) ∈ bucketise cd hs →
      ((hs.filter (fun h => h.frequency_group == t)).map
          (fun h => h.sample_frequency)).getLast? = some a.sfreqHZ := by
    intro t a hm
    have hkey : t ∈ (bucketise cd hs).map Prod.fst :=
      List.mem_map.mpr ⟨(t, a), hm, rfl⟩
    have hkey' : t ∈ (cd.zip hs).map (fun p => p.2.frequency_group) := by
      rw [bucketise] at hkey
      rcases (mem_keys_foldl (cd.zip hs) [] t).mp hkey with he | he
      · cases he
      · exact he
    obtain ⟨p, hp, hpt⟩ := List.mem_map.mp hkey'
    have hmemf : p ∈ (cd.zip hs).filter
        (fun p => p.2.frequency_group == t) :=
      List.mem_filter.mpr ⟨hp, by simp [hpt]⟩
    have hne : (cd.zip hs).filter (fun p => p.2.frequency_group == t)
        ≠ [] := List.ne_nil_of_mem hmemf
    rw [← hcontent t a hm, haccum, foldl_accAppend_sfreq, ← hfil t,
      List.map_map]
    cases hl : ((cd.zip hs).filter
        (fun p => p.2.frequency_group == t)).getLast? with
    | none => exact absurd (List.getLast?_eq_none_iff.mp hl) hne
    | some q => simp [hl]
  have hinj : ∀ x ∈ hs, ∀ y ∈ hs, x.label = y.label → x = y :=
    List.inj_on_of_nodup_map (hlabels ▸ hnodup)
  refine ⟨?_, hnd, ?_, ?_, ?_, ?_⟩
  · intro h hm
    simp only [hhs, addFrequencyGroupsToHeaders, List.mem_map] at hm
    obtain ⟨h0, _, rfl⟩ := hm
    rfl
  · intro t a hm
    refine ⟨?_, hsfreq t a hm⟩
    rw [← hcontent t a hm, hchan]
  · intro h hm
    constructor
    · have hzm : h ∈ (cd.zip hs).map Prod.snd := by rw [hsnd]; exact hm
      obtain ⟨p, hp, hps⟩ := List.mem_map.mp hzm
      have hkey : h.frequency_group ∈ (bucketise cd hs).map Prod.fst := by
        rw [bucketise, mem_keys_foldl]
        right
        exact List.mem_map.mpr ⟨p, hp, by rw [hps]⟩
      refine ⟨accumAtD (bucketise cd hs) h.frequency_group,
        accumAtD_mem _ _ hkey, ?_⟩
      rw [hchan]
      exact List.mem_map.mpr ⟨h, List.mem_filter.mpr ⟨hm, by simp⟩, rfl⟩
    · intro t a hmem hlab
      have hl2 : h.label ∈ (hs.filter
          (fun h' => h'.frequency_group == t)).map (fun h' => h'.label) := by
        rw [← hchan t, hcontent t a hmem]
        exact hlab
      obtain ⟨h', hh', hlabeq⟩ := List.mem_map.mp hl2
      obtain ⟨hh'mem, hh't⟩ := List.mem_filter.mp hh'
      have heq : h' = h := hinj h' hh'mem h hm hlabeq
      have : h'.frequency_group = t := by simpa using hh't
      rw [← this, heq]
  · have h1 := join_channels_foldl (cd.zip hs) []
    rw [bucketise]
    refine h1.trans ?_
    have h2 : (cd.zip hs).map (fun p => p.2.label)
        = hs.map (fun h => h.label) := by
      conv_rhs => rw [← hsnd]
      rw [List.map_map]
      rfl
    simp only [List.map_nil, List.flatten_nil, List.nil_append]
    rw [h2, hlabels]
  · have h1 := join_channels_foldl (cd.zip hs) []
    rw [bucketise]
    have h2 : (cd.zip hs).map (fun p => p.2.label)
        = hs.map (fun h => h.label) := by
      conv_rhs => rw [← hsnd]
      rw [List.map_map]
      rfl
    have hperm := h1.trans (by
      simp only [List.map_nil, List.flatten_nil, List.nil_append]
      rw [h2, hlabels])
    exact hperm.nodup_iff.mpr hnodup

/-- Claim C3 witness: the amended theorem instantiated on the spec's §8
example scenario — channel "A" at 1 Hz and channel "B" at 4 Hz. -/
theorem c3_frequency_grouping_witness :
    (∀ h ∈ addFrequencyGroupsToHeaders
        [SignalHeader.mk "A" 1 (-500) 500 (-2048) 2047 "",
         SignalHeader.mk "B" 4 (-1) 1 0 255 ""],
        h.frequency_group = freqGroupTag h.sample_frequency) ∧
    ((bucketise [[0], [1]] (addFrequencyGroupsToHeaders
        [SignalHeader.mk "A" 1 (-500) 500 (-2048) 2047 "",
         SignalHeader.mk "B" 4 (-1) 1 0 255 ""])).map Prod.fst).Nodup ∧
    (∀ t a, (t, a) ∈ bucketise [[0], [1]] (addFrequencyGroupsToHeaders
        [SignalHeader.mk "A" 1 (-500) 500 (-2048) 2047 "",
         SignalHeader.mk "B" 4 (-1) 1 0 255 ""]) →
        a.channels = ((addFrequencyGroupsToHeaders
          [SignalHeader.mk "A" 1 (-500) 500 (-2048) 2047 "",
           SignalHeader.mk "B" 4 (-1) 1 0 255 ""]).filter
          (fun h => h.frequency_group == t)).map (fun h => h.label)
        ∧ (((addFrequencyGroupsToHeaders
            [SignalHeader.mk "A" 1 (-500) 500 (-2048) 2047 "",
             SignalHeader.mk "B" 4 (-1) 1 0 255 ""]).filter
            (fun h => h.frequency_group == t)).map
              (fun h => h.sample_frequency)).getLast? = some a.sfreqHZ) ∧
    (∀ h ∈ addFrequencyGroupsToHeaders
        [SignalHeader.mk "A" 1 (-500) 500 (-2048) 2047 "",
         SignalHeader.mk "B" 4 (-1) 1 0 255 ""],
        (∃ a, (h.frequency_group, a)
              ∈ bucketise [[0], [1]] (addFrequencyGroupsToHeaders
                [SignalHeader.mk "A" 1 (-500) 500 (-2048) 2047 "",
                 SignalHeader.mk "B" 4 (-1) 1 0 255 ""])
            ∧ h.label ∈ a.channels)
        ∧ ∀ t a, (t, a) ∈ bucketise [[0], [1]] (addFrequencyGroupsToHeaders
              [SignalHeader.mk "A" 1 (-500) 500 (-2048) 2047 "",
               SignalHeader.mk "B" 4 (-1) 1 0 255 ""]) →
            h.label ∈ a.channels → t = h.frequency_group) ∧
    ((bucketise [[0], [1]] (addFrequencyGroupsToHeaders
        [SignalHeader.mk "A" 1 (-500) 500 (-2048) 2047 "",
         SignalHeader.mk "B" 4 (-1) 1 0 255 ""])).map
        (fun p => p.2.channels)).flatten.Perm
      ([SignalHeader.mk "A" 1 (-500) 500 (-2048) 2047 "",
        SignalHeader.mk "B" 4 (-1) 1 0 255 ""].map (fun h => h.label)) ∧
    ((bucketise [[0], [1]] (addFrequencyGroupsToHeaders
        [SignalHeader.mk "A" 1 (-500) 500 (-2048) 2047 "",
         SignalHeader.mk "B" 4 (-1) 1 0 255 ""])).map
        (fun p => p.2.channels)).flatten.Nodup :=
  c3_frequency_grouping [[0], [1]]
    [SignalHeader.mk "A" 1 (-500) 500 (-2048) 2047 "",
     SignalHeader.mk "B" 4 (-1) 1 0 255 ""]
    rfl (by simp)


/-- Claim C4: with `validate=true`, extraction raises the
duration-inconsistency `ValueError` if and only if some channel's
`n_samples / sample_rate` fails the `np.isclose` comparison against the
first channel's duration; on a mismatch `extract_data` aborts (it propagates
exactly the validation error and returns no result), rather than skipping
the offending channel.  Hypotheses: one channel-data row per header, at
least one channel, and positive sampling rates (a zero rate would be a
`ZeroDivisionError` in Python, outside this model). -/
theorem c4_duration_validation (c0 : List ℤ) (cdt : List (List ℤ))
    (h0 : SignalHeader) (hst : List SignalHeader)
    (hlen : (c0 :: cdt).length = (h0 :: hst).length)
    (hfpos : ∀ h ∈ h0 :: hst, 0 < h.sample_frequency) :
    (validateConsistentDuration (c0 :: cdt) (h0 :: hst)
        = .error (.valueError
          "Channels in the input file are inconsistent with respect to the duration of the record.")
      ↔ ∃ d ∈ List.zipWith
            (fun (c : List ℤ) (h : SignalHeader) =>
              (c.length : ℚ) / h.sample_frequency) (c0 :: cdt) (h0 :: hst),
          ¬ npIsClose ((c0.length : ℚ) / h0.sample_frequency) d) ∧
    (∀ e, validateConsistentDuration (c0 :: cdt) (h0 :: hst) = .error e →
        e = .valueError
          "Channels in the input file are inconsistent with respect to the duration of the record.") ∧
    (∀ e, extractData (c0 :: cdt) (h0 :: hst) true = .error e ↔
        validateConsistentDuration (c0 :: cdt) (h0 :: hst) = .error e) ∧
    (validateConsistentDuration (c0 :: cdt) (h0 :: hst) = .ok () →
        ∃ r, extractData (c0 :: cdt) (h0 :: hst) true = .ok r) := by
  have hdur : List.zipWith
      (fun (c : List ℤ) (h : SignalHeader) =>
        (c.length : ℚ) / h.sample_frequency) (c0 :: cdt) (h0 :: hst)
      = ((c0.length : ℚ) / h0.sample_frequency)
        :: List.zipWith (fun (c : List ℤ) (h : SignalHeader) =>
            (c.length : ℚ) / h.sample_frequency) cdt hst := rfl
  constructor
  · rw [validateConsistentDuration]
    by_cases hall : ∀ d ∈ List.zipWith
        (fun (c : List ℤ) (h : SignalHeader) =>
          (c.length : ℚ) / h.sample_frequency) (c0 :: cdt) (h0 :: hst),
        npIsClose ((c0.length : ℚ) / h0.sample_frequency) d
    · rw [hdur] at hall ⊢
      simp only [if_pos hall]
      constructor
      · intro he
        cases he
      · intro ⟨d, hd, hnc⟩
        exact absurd (hall d (hdur ▸ hd)) hnc
    · rw [hdur] at hall ⊢
      simp only [if_neg hall]
      constructor
      · intro _
        push_neg at hall
        obtain ⟨d, hd, hnc⟩ := hall
        exact ⟨d, hd, hnc⟩
      · intro _
        trivial
  refine ⟨?_, ?_, ?_⟩
  · intro e he
    rw [validateConsistentDuration] at he
    by_cases hall : ∀ d ∈ List.zipWith
        (fun (c : List ℤ) (h : SignalHeader) =>
          (c.length : ℚ) / h.sample_frequency) (c0 :: cdt) (h0 :: hst),
        npIsClose ((c0.length : ℚ) / h0.sample_frequency) d
    · rw [hdur] at hall
      simp only [hdur, if_pos hall] at he
      cases he
    · rw [hdur] at hall
      simp only [hdur, if_neg hall] at he
      injection he with h1
      exact h1.symm
  · intro e
    rw [extractData]
    cases hv : validateConsistentDuration (c0 :: cdt) (h0 :: hst) with
    | error e2 => simp [hv]
    | ok u => simp [hv]
  · intro hok
    rw [extractData]
    simp [hok]

/-- Claim C4 witness: two channels whose durations differ (8 samples at
4 Hz = 2 s versus 1 sample at 1 Hz = 1 s) produce the duration
`ValueError`, and the theorem's equivalences hold at that input. -/
theorem c4_duration_validation_witness :
    (validateConsistentDuration [[0, 0, 0, 0, 0, 0, 0, 0], [0]]
        [SignalHeader.mk "A" 4 (-1) 1 0 255 "",
         SignalHeader.mk "B" 1 (-1) 1 0 255 ""]
        = .error (.valueError
          "Channels in the input file are inconsistent with respect to the duration of the record.")
      ↔ ∃ d ∈ List.zipWith
            (fun (c : List ℤ) (h : SignalHeader) =>
              (c.length : ℚ) / h.sample_frequency)
            [[0, 0, 0, 0, 0, 0, 0, 0], [0]]
            [SignalHeader.mk "A" 4 (-1) 1 0 255 "",
             SignalHeader.mk "B" 1 (-1) 1 0 255 ""],
          ¬ npIsClose (((8 : Nat) : ℚ) / 4) d) ∧
    (∀ e, validateConsistentDuration [[0, 0, 0, 0, 0, 0, 0, 0], [0]]
        [SignalHeader.mk "A" 4 (-1) 1 0 255 "",
         SignalHeader.mk "B" 1 (-1) 1 0 255 ""] = .error e →
        e = .valueError
          "Channels in the input file are inconsistent with respect to the duration of the record.") ∧
    (∀ e, extractData [[0, 0, 0, 0, 0, 0, 0, 0], [0]]
        [SignalHeader.mk "A" 4 (-1) 1 0 255 "",
         SignalHeader.mk "B" 1 (-1) 1 0 255 ""] true = .error e ↔
        validateConsistentDuration [[0, 0, 0, 0, 0, 0, 0, 0], [0]]
          [SignalHeader.mk "A" 4 (-1) 1 0 255 "",
           SignalHeader.mk "B" 1 (-1) 1 0 255 ""] = .error e) ∧
    (validateConsistentDuration [[0, 0, 0, 0, 0, 0, 0, 0], [0]]
        [SignalHeader.mk "A" 4 (-1) 1 0 255 "",
         SignalHeader.mk "B" 1 (-1) 1 0 255 ""] = .ok () →
        ∃ r, extractData [[0, 0, 0, 0, 0, 0, 0, 0], [0]]
          [SignalHeader.mk "A" 4 (-1) 1 0 255 "",
           SignalHeader.mk "B" 1 (-1) 1 0 255 ""] true = .ok r) :=
  c4_duration_validation [0, 0, 0, 0, 0, 0, 0, 0] [[0]]
    (SignalHeader.mk "A" 4 (-1) 1 0 255 "")
    [SignalHeader.mk "B" 1 (-1) 1 0 255 ""]
    rfl
    (by
      intro h hm
      simp only [List.mem_cons, List.mem_singleton] at hm
      rcases hm with h1 | h1 | h1
      · rw [h1]; norm_num
      · rw [h1]; norm_num
      · cases h1)



/-- Helper: a successful `extract_data` returns exactly the stacked
frequency groups of the channel loop. -/
theorem extractData_ok_fgs (cd : List (List ℤ)) (hs : List SignalHeader)
    (v : Bool) (r : ExtractResult) (hok : extractData cd hs v = .ok r) :
    r.fgs = (bucketise cd hs).map (fun p => (p.1, stackFG p.2)) := by
  match cd, hs with
  | [], [] =>
    rw [show extractData ([] : List (List ℤ)) [] v
        = .error (.indexError "list index out of range") from rfl] at hok
    cases hok
  | [], h0 :: hst =>
    rw [show extractData ([] : List (List ℤ)) (h0 :: hst) v
        = .error (.indexError "list index out of range") from rfl] at hok
    cases hok
  | c0 :: cdt, [] =>
    rw [show extractData (c0 :: cdt) [] v
        = .error (.indexError "list index out of range") from rfl] at hok
    cases hok
  | c0 :: cdt, h0 :: hst =>
    rw [extractData] at hok
    by_cases hv : v
    · subst hv
      simp only [if_pos] at hok
      cases hvd : validateConsistentDuration (c0 :: cdt) (h0 :: hst) with
      | error e => rw [hvd] at hok; cases hok
      | ok u =>
        rw [hvd] at hok
        injection hok with h1
        rw [← h1]
    · simp only [hv, Bool.false_eq_true, if_false] at hok
      injection hok with h1
      rw [← h1]

/-- Claim C7, counterexample.  A channel with `physical_min = 0.5` has its
`signal_minmaxs` column stored as `[0, 1, 0, 1]` with element dtype
`np.int16`, not 64-bit floating point: `extract_data` builds the row with
`np.array([...], dtype=np.int16)` and stacks with
`np.stack(..., 1, dtype=np.int16)`, truncating the fractional physical
bound 0.5 to 0. -/
theorem c7_counterexample :
    extractData [[0]]
        (addFrequencyGroupsToHeaders
          [SignalHeader.mk "A" 1 (1 / 2) 1 0 1 ""]) true
      = .ok (ExtractResult.mk
          [("fg_1.0", FGArrays.mk ["A"] 1 [[0]] .int16 [[0, 1, 0, 1]] .int16)]
          1) ∧
    NpDType.int16 ≠ NpDType.float64 ∧
    toInt16 (1 / 2) = 0 ∧ ((1 : ℚ) / 2) ≠ 0 := by
  have htag : freqGroupTag 1 = "fg_1.0" := by
    have h1 : npRound1 1 = 1 := by
      rw [npRound1, halfEvenInt]
      rw [show ((1 : ℚ) * 10) = 10 by norm_num]
      rw [show (⌊(10 : ℚ)⌋ : ℤ) = 10 by norm_num]
      rw [if_neg (by norm_num)]
      rw [round_eq]
      rw [show ((10 : ℚ) + 1 / 2) = 21 / 2 by norm_num]
      rw [show (⌊(21 / 2 : ℚ)⌋ : ℤ) = 10 from by rw [Int.floor_eq_iff]; norm_num]
      norm_num
    rw [freqGroupTag, h1, decimalStr1]
    rw [show (⌊((1 : ℚ) * 10)⌋ : ℤ) = 10 by norm_num]
    rfl
  have hhalf : toInt16 (1 / 2) = 0 := by
    rw [toInt16, ratTrunc, if_pos (by norm_num)]
    rw [show (⌊(1 / 2 : ℚ)⌋ : ℤ) = 0 from by rw [Int.floor_eq_iff]; norm_num]
    rfl
  have hzero : toInt16 0 = 0 := by
    rw [toInt16, ratTrunc, if_pos le_rfl]
    norm_num [wrapInt16]
  have hone : toInt16 1 = 1 := by
    rw [toInt16, ratTrunc, if_pos (by norm_num)]
    norm_num [wrapInt16]
  have hhs : addFrequencyGroupsToHeaders [SignalHeader.mk "A" 1 (1 / 2) 1 0 1 ""]
      = [SignalHeader.mk "A" 1 (1 / 2) 1 0 1 "fg_1.0"] := by
    simp only [addFrequencyGroupsToHeaders, List.map_cons, List.map_nil]
    rw [htag]
  refine ⟨?_, ?_, hhalf, by norm_num⟩
  · rw [hhs, extractData]
    rw [show validateConsistentDuration [[0]]
        [SignalHeader.mk "A" 1 (1 / 2) 1 0 1 "fg_1.0"]
        = .ok () from by
      rw [validateConsistentDuration]
      simp [npIsClose]
      norm_num]
    simp [bucketise, bucketStep, accAppend,
      stackFG, minmaxVec, hhalf, hzero, hone, ExtractResult.mk.injEq,
      FGArrays.mk.injEq]
    constructor
    · norm_num [wrapInt16]
    · rw [show ((2 : ℚ))⁻¹ = 1 / 2 by norm_num]
      exact hhalf
  · intro he
    cases he

/-- Claim C7 (amended): for every frequency group written by `extract_data`,
both the `signal` and the `signal_minmaxs` arrays are stored with element
dtype `np.int16`: the min/max rows are `np.array(..., dtype=np.int16)`
casts of the header values (not 64-bit floats), and the digital codes are
re-cast to int16 by `np.stack(..., 1, dtype=np.int16)` regardless of their
native width. -/
theorem c7_storage_dtypes (cd : List (List ℤ)) (hs : List SignalHeader)
    (v : Bool) (r : ExtractResult) (hlen : cd.length = hs.length)
    (hok : extractData cd hs v = .ok r) :
    ∀ p ∈ r.fgs, p.2.signalDtype = NpDType.int16
      ∧ p.2.minmaxDtype = NpDType.int16
      ∧ p.2.minmaxColumns
          = (hs.filter (fun h => h.frequency_group == p.1)).map minmaxVec
      ∧ p.2.signalColumns
          = ((cd.zip hs).filter (fun q => q.2.frequency_group == p.1)).map
              (fun q => q.1.map wrapInt16) := by
  intro p hp
  rw [extractData_ok_fgs cd hs v r hok] at hp
  obtain ⟨q, hq, hpq⟩ := List.mem_map.mp hp
  have hsnd : (cd.zip hs).map Prod.snd = hs :=
    List.map_snd_zip cd hs (le_of_eq hlen.symm)
  have hnd : ((bucketise cd hs).map Prod.fst).Nodup :=
    keys_nodup_foldl _ [] (by simp)
  have hacc : accumAtD (bucketise cd hs) q.1 = q.2 :=
    accumAtD_of_mem _ _ _ hnd (by rw [show (q.1, q.2) = q from rfl]; exact hq)
  have haccum : accumAtD (bucketise cd hs) q.1
      = ((cd.zip hs).filter (fun p => p.2.frequency_group == q.1)).foldl
          (fun a p => accAppend a p.1 p.2) (FGAccum.mk [] [] [] 0) := by
    rw [bucketise, accumAtD_foldl]
    rfl
  have hfil : ((cd.zip hs).filter
        (fun p => p.2.frequency_group == q.1)).map Prod.snd
      = hs.filter (fun h => h.frequency_group == q.1) := by
    conv_rhs => rw [← hsnd]
    rw [List.filter_map]
    rfl
  have hmm : q.2.minmaxChannels
      = (hs.filter (fun h => h.frequency_group == q.1)).map minmaxVec := by
    rw [← hacc, haccum, foldl_accAppend_minmax, ← hfil, List.map_map]
    rfl
  have hsig : q.2.signalChannels
      = ((cd.zip hs).filter (fun p => p.2.frequency_group == q.1)).map
          (fun p => p.1) := by
    rw [← hacc, haccum, foldl_accAppend_signal]
    rfl
  rw [← hpq]
  refine ⟨rfl, rfl, ?_, ?_⟩
  · exact hmm
  · show q.2.signalChannels.map (fun c => c.map wrapInt16) = _
    rw [hsig, List.map_map]
    rfl

/-- Claim C7 witness: the amended storage theorem instantiated on a single
1 Hz channel with unit ranges, evaluated at the one frequency-group entry
of the result. -/
theorem c7_storage_dtypes_witness :
    ("g", FGArrays.mk ["A"] 1 [[3]] NpDType.int16 [[0, 1, 0, 1]]
        NpDType.int16).2.signalDtype = NpDType.int16
    ∧ ("g", FGArrays.mk ["A"] 1 [[3]] NpDType.int16 [[0, 1, 0, 1]]
        NpDType.int16).2.minmaxDtype = NpDType.int16
    ∧ ("g", FGArrays.mk ["A"] 1 [[3]] NpDType.int16 [[0, 1, 0, 1]]
          NpDType.int16).2.minmaxColumns
        = ([SignalHeader.mk "A" 1 0 1 0 1 "g"].filter
            (fun h => h.frequency_group
              == ("g", FGArrays.mk ["A"] 1 [[3]] NpDType.int16 [[0, 1, 0, 1]]
                NpDType.int16).1)).map minmaxVec
    ∧ ("g", FGArrays.mk ["A"] 1 [[3]] NpDType.int16 [[0, 1, 0, 1]]
          NpDType.int16).2.signalColumns
        = (([[3]].zip [SignalHeader.mk "A" 1 0 1 0 1 "g"]).filter
            (fun q => q.2.frequency_group
              == ("g", FGArrays.mk ["A"] 1 [[3]] NpDType.int16 [[0, 1, 0, 1]]
                NpDType.int16).1)).map (fun q => q.1.map wrapInt16) :=
  c7_storage_dtypes [[3]] [SignalHeader.mk "A" 1 0 1 0 1 "g"] false
    (ExtractResult.mk
      [("g", FGArrays.mk ["A"] 1 [[3]] NpDType.int16 [[0, 1, 0, 1]]
        NpDType.int16)] 1)
    rfl
    (by
      rw [extractData]
      simp [bucketise, bucketStep, accAppend, stackFG, minmaxVec, toInt16,
        ratTrunc, wrapInt16, ExtractResult.mk.injEq, FGArrays.mk.injEq]
      try norm_num)
    ("g", FGArrays.mk ["A"] 1 [[3]] NpDType.int16 [[0, 1, 0, 1]]
      NpDType.int16)
    (List.mem_singleton.mpr rfl)



/-! ### Helper lemmas about format detection -/

theorem detect_pre_unknown {α : Type} (pre rest : List (α → FileFormat))
    (file : α) (hpre : ∀ p ∈ pre, p file = .UNKNOWN) :
    detectFileformat (pre ++ rest) file = detectFileformat rest file := by
  induction pre with
  | nil => rfl
  | cons p ps ih =>
    rw [List.cons_append]
    have hp : p file = .UNKNOWN := hpre p (List.mem_cons_self p ps)
    show (if p file ≠ .UNKNOWN then p file
        else detectFileformat (ps ++ rest) file) = _
    rw [hp]
    simp only [ne_eq, not_true_eq_false, if_false]
    exact ih (fun q hq => hpre q (List.mem_cons_of_mem p hq))

theorem detect_all_unknown {α : Type} (ds : List (α → FileFormat))
    (file : α) (hall : ∀ p ∈ ds, p file = .UNKNOWN) :
    detectFileformat ds file = .UNKNOWN := by
  induction ds with
  | nil => rfl
  | cons d rest ih =>
    have hd : d file = .UNKNOWN := hall d (List.mem_cons_self d rest)
    show (if d file ≠ .UNKNOWN then d file
        else detectFileformat rest file) = _
    rw [hd]
    simp only [ne_eq, not_true_eq_false, if_false]
    exact ih (fun q hq => hall q (List.mem_cons_of_mem d hq))

/-! ### Helper lemma about channel lookup -/

theorem channelFGs_unknown (ci : List (String × String)) (cs : List String)
    (hex : ∃ c ∈ cs, ci.find? (fun p => p.1 == c) = none) :
    ∃ c, ci.find? (fun p => p.1 == c) = none
      ∧ channelFGs ci cs = .error (.keyError c) := by
  induction cs with
  | nil =>
    obtain ⟨c, hc, _⟩ := hex
    cases hc
  | cons c0 cs ih =>
    cases hfind : ci.find? (fun p => p.1 == c0) with
    | none =>
      refine ⟨c0, hfind, ?_⟩
      have hcfg : channelFG ci c0 = .error (.keyError c0) := by
        rw [channelFG, hfind]
      simp only [channelFGs, hcfg]
      rfl
    | some p =>
      obtain ⟨c, hc, hnone⟩ := hex
      have hc' : c ∈ cs := by
        rcases List.mem_cons.mp hc with he | he
        · subst he
          rw [hfind] at hnone
          cases hnone
        · exact he
      obtain ⟨c2, hn2, hr2⟩ := ih ⟨c, hc', hnone⟩
      refine ⟨c2, hn2, ?_⟩
      have hcfg : channelFG ci c0 = .ok p.2 := by
        rw [channelFG, hfind]
      simp only [channelFGs, hcfg, hr2]
      rfl

end RKNS

namespace RKNS

/-- Claim C5 (code bug): with the normalized zone already present,
`create_rkns_group_structure` with `overwrite_if_exists=False` raises a
plain `RuntimeError` (no `AlreadyExistsError` class exists in the code
base), and with `overwrite_if_exists=True` it deletes the *store-root*
directory `signals` — which is not where the zone lives (`rkns/signals`),
so nothing is deleted — and the retried `create_hierarchy` raises
`ContainsGroupError`: the zone is neither deleted nor recreated, so
`reset_rkns`'s destructive rebuild cannot work.  On a fresh container the
creation succeeds. -/
theorem c5_overwrite_bug :
    createRknsGroupStructure
        ["_raw", "history", "popis", "rkns", "rkns/signals", "rkns/annotations"]
        false
      = .error (.runtimeError
          "The group node /rkns already exists. For overwriting it, set overwrite_if_exists=True") ∧
    (∀ msg, createRknsGroupStructure
        ["_raw", "history", "popis", "rkns", "rkns/signals", "rkns/annotations"]
        false
      ≠ .error (.alreadyExistsError msg)) ∧
    createRknsGroupStructure
        ["_raw", "history", "popis", "rkns", "rkns/signals", "rkns/annotations"]
        true
      = .error (.containsGroupError "group exists") ∧
    deleteDir
        ["_raw", "history", "popis", "rkns", "rkns/signals", "rkns/annotations"]
        "signals"
      = ["_raw", "history", "popis", "rkns", "rkns/signals", "rkns/annotations"] ∧
    createRknsGroupStructure ["_raw", "history", "popis"] false
      = .ok ["_raw", "history", "popis", "rkns", "rkns/signals",
          "rkns/annotations"] := by
  refine ⟨rfl, ?_, rfl, by decide, rfl⟩
  intro msg he
  rw [show createRknsGroupStructure
      ["_raw", "history", "popis", "rkns", "rkns/signals", "rkns/annotations"]
      false
    = .error (.runtimeError
        "The group node /rkns already exists. For overwriting it, set overwrite_if_exists=True")
    from rfl] at he
  injection he with h1
  cases h1

/-- Claim C6, counterexample.  When every registered detector returns
UNKNOWN, `from_file` raises `NotImplementedError`, not the
`UnsupportedFormatError` named by the claim (no such class exists in the
code base). -/
theorem c6_counterexample :
    fromFileDetect [fun (_ : Unit) => FileFormat.UNKNOWN] ()
      = .error (.notImplementedError "File format could not be detected") ∧
    (∀ msg, fromFileDetect [fun (_ : Unit) => FileFormat.UNKNOWN] ()
      ≠ .error (.unsupportedFormatError msg)) := by
  refine ⟨rfl, ?_⟩
  intro msg he
  rw [show fromFileDetect [fun (_ : Unit) => FileFormat.UNKNOWN] ()
      = .error (.notImplementedError "File format could not be detected")
    from rfl] at he
  injection he with h1
  cases h1

/-- Claim C6 (amended: the top-level failure is `NotImplementedError`,
since the code base defines no `UnsupportedFormatError`): detection tries
the registered probes in registration order and returns the first
non-UNKNOWN result; if every probe yields UNKNOWN, detection returns
UNKNOWN and `from_file` raises `NotImplementedError`. -/
theorem c6_detection {α : Type} (ds pre post : List (α → FileFormat))
    (d : α → FileFormat) (file : α)
    (hsplit : ds = pre ++ d :: post)
    (hpre : ∀ p ∈ pre, p file = .UNKNOWN) :
    (d file ≠ .UNKNOWN →
      detectFileformat ds file = d file ∧
      fromFileDetect ds file = .ok (d file)) ∧
    ((d file = .UNKNOWN ∧ ∀ p ∈ post, p file = .UNKNOWN) →
      detectFileformat ds file = .UNKNOWN ∧
      fromFileDetect ds file
        = .error (.notImplementedError "File format could not be detected")) := by
  subst hsplit
  constructor
  · intro hd
    have h1 : detectFileformat (pre ++ d :: post) file = d file := by
      rw [detect_pre_unknown pre _ file hpre]
      show (if d file ≠ .UNKNOWN then d file
          else detectFileformat post file) = _
      rw [if_pos hd]
    refine ⟨h1, ?_⟩
    rw [fromFileDetect, h1, if_neg hd]
  · rintro ⟨hd, hpost⟩
    have h1 : detectFileformat (pre ++ d :: post) file = .UNKNOWN := by
      apply detect_all_unknown
      intro p hp
      rcases List.mem_append.mp hp with h | h
      · exact hpre p h
      · rcases List.mem_cons.mp h with h | h
        · rw [h]
          exact hd
        · exact hpost p h
    refine ⟨h1, ?_⟩
    rw [fromFileDetect, h1, if_pos rfl]

/-- Claim C6 witness: a registry of two probes over a unit "file" — the
first returns UNKNOWN, the second EDF — instantiating both directions. -/
theorem c6_detection_witness :
    ((fun (_ : Unit) => FileFormat.EDF) () ≠ FileFormat.UNKNOWN →
      detectFileformat
          [fun (_ : Unit) => FileFormat.UNKNOWN, fun _ => FileFormat.EDF] ()
        = (fun (_ : Unit) => FileFormat.EDF) () ∧
      fromFileDetect
          [fun (_ : Unit) => FileFormat.UNKNOWN, fun _ => FileFormat.EDF] ()
        = .ok ((fun (_ : Unit) => FileFormat.EDF) ())) ∧
    (((fun (_ : Unit) => FileFormat.EDF) () = FileFormat.UNKNOWN ∧
        ∀ p ∈ ([] : List (Unit → FileFormat)), p () = FileFormat.UNKNOWN) →
      detectFileformat
          [fun (_ : Unit) => FileFormat.UNKNOWN, fun _ => FileFormat.EDF] ()
        = FileFormat.UNKNOWN ∧
      fromFileDetect
          [fun (_ : Unit) => FileFormat.UNKNOWN, fun _ => FileFormat.EDF] ()
        = .error (.notImplementedError "File format could not be detected")) :=
  c6_detection
    [fun (_ : Unit) => FileFormat.UNKNOWN, fun _ => FileFormat.EDF]
    [fun (_ : Unit) => FileFormat.UNKNOWN] [] (fun _ => FileFormat.EDF) ()
    rfl
    (by
      intro p hp
      simp only [List.mem_singleton] at hp
      subst hp
      rfl)

/-- Claim C8 (code bug): after the container is closed (the context
manager's `__exit__` calls `StoreHandler.close`), the handler's flag is
set and a second close is a no-op (idempotent as claimed) — but the
`check_open` guard on the `RKNS` object's public methods does *not* raise:
it tests `RKNS._is_closed`, which `__init__` sets to `False` and which no
code path ever sets to `True`, so every public operation still executes. -/
theorem c8_close_guard_bug :
    (rknsExit (rknsInit false)).handlerIsClosed = true ∧
    checkOpenGuard (rknsExit (rknsInit false)) = .ok () ∧
    (∀ e, checkOpenGuard (rknsExit (rknsInit false)) ≠ .error e) ∧
    rknsExit (rknsExit (rknsInit false)) = rknsExit (rknsInit false) := by
  refine ⟨rfl, rfl, ?_, rfl⟩
  intro e he
  cases he

/-- Claim C9: `get_signal`'s selector validation raises `ValueError` when
both or neither of the `channels`/frequency selectors are given; with the
channel selector it raises `KeyError` when some requested channel name is
unknown (the first unknown one, from the per-channel lookup), and
`ValueError` when the known channels span two or more frequency groups. -/
theorem c9_selector_errors (ci : List (String × String)) (cs : List String)
    (f : ℚ) :
    getSignalSelect ci (some cs) (some f)
      = .error (.valueError "Specify either channels or frequency, not both.") ∧
    getSignalSelect ci none none
      = .error (.valueError "Specify one of either channels or frequency.") ∧
    ((∃ c ∈ cs, ci.find? (fun p => p.1 == c) = none) →
      ∃ c, ci.find? (fun p => p.1 == c) = none
        ∧ getSignalSelect ci (some cs) none = .error (.keyError c)) ∧
    (∀ gs, channelFGs ci cs = .ok gs → 2 ≤ gs.dedup.length →
      getSignalSelect ci (some cs) none
        = .error (.valueError "Channels must belong to the same frequency group.")) := by
  refine ⟨rfl, rfl, ?_, ?_⟩
  · intro hex
    obtain ⟨c, hn, hr⟩ := channelFGs_unknown ci cs hex
    refine ⟨c, hn, ?_⟩
    simp only [getSignalSelect, hr]
    rfl
  · intro gs hok hlen2
    rw [getSignalSelect, hok]
    show selectSingleFG gs = _
    rw [selectSingleFG]
    cases hd : gs.dedup with
    | nil => rfl
    | cons x xs =>
      cases xs with
      | nil =>
        rw [hd] at hlen2
        exact absurd hlen2 (by norm_num)
      | cons y ys => rfl

/-- Claim C9 witness: with channel info mapping "A" to `fg_1.0` and "B" to
`fg_4.0` (the spec's §8 scenario), both-selectors and no-selector calls
raise `ValueError`, requesting the unknown channel "X" raises
`KeyError("X")`, and requesting ["A", "B"] together raises `ValueError`. -/
theorem c9_selector_errors_witness :
    getSignalSelect [("A", "fg_1.0"), ("B", "fg_4.0")]
        (some ["A", "B"]) (some 1)
      = .error (.valueError "Specify either channels or frequency, not both.") ∧
    getSignalSelect [("A", "fg_1.0"), ("B", "fg_4.0")] none none
      = .error (.valueError "Specify one of either channels or frequency.") ∧
    (∃ c, [("A", "fg_1.0"), ("B", "fg_4.0")].find? (fun p => p.1 == c) = none
        ∧ getSignalSelect [("A", "fg_1.0"), ("B", "fg_4.0")]
            (some ["A", "X"]) none = .error (.keyError c)) ∧
    getSignalSelect [("A", "fg_1.0"), ("B", "fg_4.0")] (some ["A", "B"]) none
      = .error (.valueError "Channels must belong to the same frequency group.") := by
  have h1 := c9_selector_errors [("A", "fg_1.0"), ("B", "fg_4.0")] ["A", "B"] 1
  have h2 := c9_selector_errors [("A", "fg_1.0"), ("B", "fg_4.0")] ["A", "X"] 1
  refine ⟨h1.1, h1.2.1, ?_, ?_⟩
  · exact h2.2.2.1 ⟨"X", by decide, by decide⟩
  · exact h1.2.2.2 ["fg_1.0", "fg_4.0"] rfl (by decide)

/-- Claim C10: for an explicit time range `(start, end)`, the row-index
builder raises `ValueError` whenever `end <= start` — independently of the
recording duration, which the code only reads after that check — and
otherwise selects exactly
`slice(int(start * sfreq), int(min(start + duration, end) * sfreq))`,
clamping the window end to the recording duration measured from the start
time. -/
theorem c10_time_range (sfreq t0 t1 : ℚ) :
    (t1 ≤ t0 → ∀ duration, buildRowIdxFromTimerange duration sfreq t0 t1
        = .error (.valueError
          "Invalid time range. End time must be larger than start time.")) ∧
    (t0 < t1 → ∀ duration, buildRowIdxFromTimerange duration sfreq t0 t1
        = .ok (ratTrunc (t0 * sfreq),
            ratTrunc (min (t0 + duration) t1 * sfreq))) := by
  constructor
  · intro h duration
    rw [buildRowIdxFromTimerange, if_pos h]
  · intro h duration
    rw [buildRowIdxFromTimerange, if_neg (not_le.mpr h)]

/-- Claim C10 witness: a 10-second recording at 4 Hz with the range
`(1, 3)` yields the row slice from `int(1*4)` to `int(min(1+10, 3)*4)`,
and the inverted range `(3, 1)` raises `ValueError` for that same
duration. -/
theorem c10_time_range_witness :
    buildRowIdxFromTimerange 10 4 1 3
      = .ok (ratTrunc (1 * 4), ratTrunc (min ((1 : ℚ) + 10) 3 * 4)) ∧
    buildRowIdxFromTimerange 10 4 3 1
      = .error (.valueError
        "Invalid time range. End time must be larger than start time.") :=
  ⟨(c10_time_range 4 1 3).2 (by norm_num) 10,
   (c10_time_range 4 3 1).1 (by norm_num) 10⟩


end RKNS
